import Mathlib

/-!
Shallow embedding of `script.py` (and its tests in `tests.py`) from the
python-script repository: an optparse-based command-line argument parser
with no interspersed arguments, a `main` entry point that maps verbosity
flags to a logging level, the `getpyfile` helper, and the functional-test
teardown loop that reaps leftover subprocesses.
-/

namespace Script

/-- The parsed option record built by `parseargs` in `script.py`:
defaults are `quiet = 0`, `silent = False`, `verbose = 0`. -/
structure Options where
  quiet : Nat
  silent : Bool
  verbose : Nat
  deriving Repr, DecidableEq

/-- The defaults dictionary in `parseargs`. -/
def defaultOptions : Options := { quiet := 0, silent := false, verbose := 0 }

/-- Outcome of running the optparse parser: a normal return of options and
leftover arguments, a help exit (optparse prints help and calls
`sys.exit(0)`), or a usage error (optparse prints usage plus an error
message and calls `sys.exit(2)`). -/
inductive ParseResult where
  | ok (opts : Options) (args : List String)
  | helpExit
  | usageError (msg : String)
  deriving Repr, DecidableEq

/-- The long option strings registered on the parser: optparse adds
`--help` automatically, and `parseargs` adds `--quiet`, `--silent`, and
`--verbose`. -/
def longOptNames : List String := ["--help", "--quiet", "--silent", "--verbose"]

/-- Python `w.startswith(s)` on the character lists of the two strings. -/
def charsStartWith : List Char → List Char → Bool
  | _, [] => true
  | [], _ :: _ => false
  | c :: cs, p :: ps => c = p && charsStartWith cs ps

/-- Python `arg.split("=", 1)[0]`: the part of the token before the first
`=`, or the whole token when it has no `=`. -/
def beforeEq (arg : String) : String :=
  String.mk (arg.data.takeWhile (fun c => c ≠ '='))

/-- Python `"=" in arg`. -/
def hasEq (arg : String) : Bool :=
  arg.data.any (fun c => c = '=')

/-- Modelled from optparse `_match_long_opt` / `_match_abbrev`: an exact
long option name matches itself, otherwise a unique prefix of a registered
name matches that name, and no or ambiguous candidates fail. -/
def matchLongOpt (s : String) : Option String :=
  if s ∈ longOptNames then some s
  else
    match longOptNames.filter (fun w => charsStartWith w.data s.data) with
    | [w] => some w
    | _ => none

/-- Modelled from optparse `_process_long_opt` for this parser: split the
token at the first `=`, match the name part; an unknown name is a usage
error, an explicit value is a usage error because none of these options
takes a value, `--help` exits with help, the rest update the option
record. An `Except.error` aborts the whole parse with that result. -/
def processLongOpt (arg : String) (opts : Options) : Except ParseResult Options :=
  let optName := beforeEq arg
  let hadExplicitValue := hasEq arg
  match matchLongOpt optName with
  | none => .error (.usageError ("no such option: " ++ optName))
  | some w =>
    if hadExplicitValue = true then
      .error (.usageError (w ++ " option does not take a value"))
    else if w = "--help" then .error .helpExit
    else if w = "--quiet" then .ok { opts with quiet := opts.quiet + 1 }
    else if w = "--silent" then .ok { opts with silent := true }
    else .ok { opts with verbose := opts.verbose + 1 }

/-- Modelled from optparse `_process_short_opts` for this parser: walk the
characters of a short-option cluster after the dash; `q`, `s`, `v` update
the option record, `h` exits with help, and any other character is a
usage error. -/
def processShortChars (cs : List Char) (opts : Options) : Except ParseResult Options :=
  match cs with
  | [] => .ok opts
  | c :: rest =>
    if c = 'q' then processShortChars rest { opts with quiet := opts.quiet + 1 }
    else if c = 's' then processShortChars rest { opts with silent := true }
    else if c = 'v' then processShortChars rest { opts with verbose := opts.verbose + 1 }
    else if c = 'h' then .error .helpExit
    else .error (.usageError ("no such option: -" ++ c.toString))

/-- Modelled from optparse `_process_args` with
`allow_interspersed_args = False`, as configured by `parseargs`: `--`
terminates flag processing and the rest are positionals; a token whose
first two characters are `--` is a long option; a token whose first
character is `-` with length greater than one is a short-option cluster;
any other token stops flag processing and is returned, with everything
after it, as the positional list. Python's slices `arg[0:2]` and
`arg[:1]` are rendered as `take` on the token's character list. -/
def processArgs (args : List String) (opts : Options) : ParseResult :=
  match args with
  | [] => .ok opts []
  | arg :: rest =>
    if arg = "--" then .ok opts rest
    else if arg.data.take 2 = ['-', '-'] then
      match processLongOpt arg opts with
      | .error r => r
      | .ok opts' => processArgs rest opts'
    else if arg.data.take 1 = ['-'] ∧ arg.length > 1 then
      match processShortChars (arg.data.drop 1) opts with
      | .error r => r
      | .ok opts' => processArgs rest opts'
    else .ok opts (arg :: rest)

/-- Embedding of `parseargs` in `script.py`: parse `argv[1:]` against the
three registered options starting from the defaults. `argv[0]` is only
the program name used in usage and help text. -/
def parseargs (argv : List String) : ParseResult :=
  processArgs (argv.drop 1) defaultOptions

/-- Severity constant from the Python `logging` module. -/
def logging_DEBUG : Int := 10

/-- Severity constant from the Python `logging` module. -/
def logging_INFO : Int := 20

/-- Severity constant from the Python `logging` module. -/
def logging_WARNING : Int := 30

/-- Severity constant from the Python `logging` module. -/
def logging_ERROR : Int := 40

/-- Severity constant from the Python `logging` module. -/
def logging_CRITICAL : Int := 50

/-- The level computation in `main`:
`level = logging.WARNING - ((opts.verbose - opts.quiet) * 10)`, then
`if opts.silent: level = logging.CRITICAL + 1`. -/
def computeLevel (opts : Options) : Int :=
  let level := logging_WARNING - (((opts.verbose : Int) - (opts.quiet : Int)) * 10)
  if opts.silent then logging_CRITICAL + 1 else level

/-- Outcome of calling `main(argv, out, err)` directly: either a
`SystemExit` escapes from argument parsing (help exits 0, usage errors
exit 2), or `main` returns. On return we record the returned value (the
Python function body has no `return`, so it returns `None`), the log
records emitted, and the text written to the `out` and `err` streams. -/
inductive MainOutcome where
  | exited (code : Int)
  | returned (retval : Option Int) (records : List String) (out : String) (err : String)
  deriving Repr, DecidableEq

/-- Embedding of `main` in `script.py`: parse the arguments, compute the
level, attach a bare-message handler on the `err` stream, and emit one
`log.debug("Ready to run")`. The logger emits the record exactly when
`logging.DEBUG >= level`; the handler then writes the formatted message
plus a newline to `err`. Nothing is ever written to `out`. -/
def main (argv : List String) : MainOutcome :=
  match parseargs argv with
  | .helpExit => .exited 0
  | .usageError _ => .exited 2
  | .ok opts _args =>
    let level := computeLevel opts
    if logging_DEBUG ≥ level then
      .returned none ["Ready to run"] "" ("Ready to run" ++ "\n")
    else
      .returned none [] "" ""

/-- The value `sys.exit` turns into a process exit status: `None` maps to
status 0 and an integer maps to itself. -/
def sysExitCode (retval : Option Int) : Int :=
  match retval with
  | none => 0
  | some n => n

/-- Modelled from optparse `get_usage` with the default usage string
`"%prog [options]"` and `prog = argv[0]` as set by `parseargs`. -/
def usageText (prog : String) : String :=
  "Usage: " ++ (prog ++ " [options]\n")

/-- Modelled from optparse `format_help` for this parser: the usage line
followed by the option descriptions registered in `parseargs`. -/
def helpText (prog : String) : String :=
  usageText prog ++
    "\nOptions:\n" ++
    "  -h, --help     show this help message and exit\n" ++
    "  -q, --quiet    decrease the logging verbosity\n" ++
    "  -s, --silent   silence the logger\n" ++
    "  -v, --verbose  increase the logging verbosity\n"

/-- Process exit status, stdout text, stderr text, and emitted log
records of one whole invocation `sys.exit(main(sys.argv))`. -/
structure RunResult where
  exitCode : Int
  out : String
  err : String
  records : List String
  deriving Repr, DecidableEq

/-- Embedding of running the script as a process: a help exit prints the
help text to stdout and exits 0; a usage error prints the usage text and
the error message to stderr and exits 2 (optparse `error`); otherwise
`main` runs to completion, its stream output is observed, and its return
value `None` becomes exit status 0. -/
def runScript (argv : List String) : RunResult :=
  let prog := argv.headD ""
  match parseargs argv with
  | .helpExit =>
    { exitCode := 0, out := helpText prog, err := "", records := [] }
  | .usageError msg =>
    { exitCode := 2, out := "",
      err := usageText prog ++ (prog ++ (": error: " ++ (msg ++ "\n"))),
      records := [] }
  | .ok opts _args =>
    let level := computeLevel opts
    if logging_DEBUG ≥ level then
      { exitCode := 0, out := "", err := "Ready to run" ++ "\n",
        records := ["Ready to run"] }
    else
      { exitCode := 0, out := "", err := "", records := [] }

/-- Embedding of `getpyfile` in `script.py`, parameterised like the
source over the extension splitter and the existence predicate: if the
extension's first three characters are `.py`, resolve to `base + ".py"`;
if the resolved file does not exist, fall back to the original
filename. -/
def getpyfile (filename : String) (split : String → String × String)
    (exists' : String → Bool) : String :=
  let sourcefile := filename
  let (base, ext) := split filename
  let sourcefile :=
    if ext.data.take 3 = ['.', 'p', 'y'] then base ++ ".py" else sourcefile
  if !exists' sourcefile then filename else sourcefile

/-- A process handle as seen by `TestFunctional.tearDown`: `kill` either
succeeds (`killResult = none`) or raises `OSError` with the given errno
(`killResult = some e`). `FakeProcess` from `tests.py` is the instance
whose `kill` always succeeds. -/
structure FakeProc where
  pid : Int
  killResult : Option Nat
  deriving Repr, DecidableEq

/-- Embedding of the reap loop in `TestFunctional.tearDown`:
`while self.processes: process = self.processes.pop(); try:
process.kill() except OSError, e: if e.errno != 3: raise`. The list is
drained from its end (`pop`); a kill failing with errno 3 is swallowed;
any other errno propagates as `Except.error`. On normal completion the
result carries the remaining process list (always empty) and the
processes on which `kill` was invoked, in invocation order. -/
def tearDownLoop (processes : List FakeProc) (killed : List FakeProc) :
    Except Nat (List FakeProc × List FakeProc) :=
  match h : processes.getLast? with
  | none => .ok (processes, killed)
  | some p =>
    have : processes.dropLast.length < processes.length := by
      cases processes with
      | nil => simp at h
      | cons a l => simp [List.length_dropLast]
    match p.killResult with
    | none => tearDownLoop processes.dropLast (killed ++ [p])
    | some e =>
      if e = 3 then tearDownLoop processes.dropLast (killed ++ [p])
      else .error e
termination_by processes.length

/-- The whole teardown reap: run the loop starting from the harness's
process list with no kills recorded yet. -/
def tearDownProcs (processes : List FakeProc) :
    Except Nat (List FakeProc × List FakeProc) :=
  tearDownLoop processes []

/-! Predicates over argument tokens, used to state the claims. -/

/-- A token the parse loop treats as a flag rather than a positional: it
is `--`, or its first two characters are `--`, or its first character is
`-` and it is longer than one character. -/
def flagLike (t : String) : Bool :=
  t = "--" || t.data.take 2 = ['-', '-'] || (t.data.take 1 = ['-'] && t.length > 1)

/-- A short-option cluster built only from the recognized option letters
`q`, `s`, `v`: a dash followed by at least one such letter (and no second
leading dash). -/
def shortRecognized (t : String) : Bool :=
  t.data.take 1 = ['-'] && !(t.data.take 2 = ['-', '-']) && t.length > 1 &&
    (t.data.drop 1).all (fun c => c = 'q' || c = 's' || c = 'v')

/-- A token spelling one or more of the three recognized options of
`parseargs`: one of the exact long names, or a recognized short
cluster. -/
def recognizedFlagToken (t : String) : Bool :=
  t = "--quiet" || t = "--silent" || t = "--verbose" || shortRecognized t

/-- A short-option cluster the parser rejects: scanning left to right,
every recognized letter is consumed, and the scan reaches a character
that is not a recognized option letter and not `h`. -/
def badShortCluster : List Char → Bool
  | [] => false
  | c :: rest =>
    if c = 'q' then badShortCluster rest
    else if c = 's' then badShortCluster rest
    else if c = 'v' then badShortCluster rest
    else if c = 'h' then false
    else true

/-- A flag-looking token the parser does not recognize: a long token
whose name part is a prefix of no registered long option, or a short
cluster whose scan fails before reaching an `h`. -/
def unrecognizedFlag (t : String) : Bool :=
  if t.data.take 2 = ['-', '-'] then
    t ≠ "--" && longOptNames.all (fun w => !charsStartWith w.data (beforeEq t).data)
  else if t.data.take 1 = ['-'] && t.length > 1 then
    badShortCluster (t.data.drop 1)
  else false

/-- The six exact flag spellings recognized by `parseargs`. -/
def sixFlags : List String :=
  ["-q", "--quiet", "-s", "--silent", "-v", "--verbose"]

/-- Number of quiet flags in a token list. -/
def countQuiet (l : List String) : Nat :=
  (l.filter (fun t => t = "-q" || t = "--quiet")).length

/-- Number of verbose flags in a token list. -/
def countVerbose (l : List String) : Nat :=
  (l.filter (fun t => t = "-v" || t = "--verbose")).length

/-- Whether a silent flag occurs in a token list. -/
def anySilent (l : List String) : Bool :=
  l.any (fun t => t = "-s" || t = "--silent")

/-! Theorems. -/

/-- C1: for every parsed `Options` value, `main` computes the logging
level as `WARNING - ((verbose - quiet) * 10)` when `silent` is false, and
as `CRITICAL + 1`, a level strictly above every severity of the reference
scale, when `silent` is true. -/
theorem main_level_formula (opts : Options) :
    (opts.silent = false →
      computeLevel opts =
        logging_WARNING - (((opts.verbose : Int) - (opts.quiet : Int)) * 10)) ∧
    (opts.silent = true →
      computeLevel opts = logging_CRITICAL + 1 ∧
      ∀ s ∈ [logging_DEBUG, logging_INFO, logging_WARNING, logging_ERROR,
          logging_CRITICAL], s < computeLevel opts) := by
  constructor
  · intro h
    simp [computeLevel, h]
  · intro h
    refine ⟨by simp [computeLevel, h], ?_⟩
    intro s hs
    simp only [List.mem_cons, List.mem_singleton, List.not_mem_nil, or_false] at hs
    rcases hs with rfl | rfl | rfl | rfl | rfl <;>
      simp [computeLevel, h, logging_DEBUG, logging_INFO, logging_WARNING,
        logging_ERROR, logging_CRITICAL]

/-- Witness for `main_level_formula` at concrete option records. -/
theorem main_level_formula_witness :
    computeLevel ⟨1, false, 2⟩ =
      logging_WARNING - (((2 : Int) - (1 : Int)) * 10) ∧
    computeLevel ⟨0, true, 0⟩ = logging_CRITICAL + 1 :=
  ⟨(main_level_formula ⟨1, false, 2⟩).1 rfl,
    ((main_level_formula ⟨0, true, 0⟩).2 rfl).1⟩

/-- C3: `main [prog, "-vv"]` produces exactly one log record, its message
text is `"Ready to run"`, and that text appears in the error stream. -/
theorem main_verbose_ready (prog : String) :
    ∃ err, main [prog, "-vv"] = .returned none ["Ready to run"] "" err ∧
      ∃ a b, err = a ++ ("Ready to run" ++ b) := by
  refine ⟨"Ready to run" ++ "\n", rfl, "", "\n", ?_⟩
  simp

/-- C4: `main [prog, "-s", "-vv"]` lets silent override verbosity: zero
log records and both streams empty. -/
theorem main_silent_overrides (prog : String) :
    main [prog, "-s", "-vv"] = .returned none [] "" "" := rfl

/-- C7: whenever argument parsing succeeds, `main` returns the success
sentinel `None`, whose `sys.exit` image is status 0. -/
theorem main_success_exit (argv : List String) (opts : Options)
    (args : List String) (h : parseargs argv = .ok opts args) :
    (∃ records err, main argv = .returned none records "" err) ∧
      sysExitCode none = 0 := by
  refine ⟨?_, rfl⟩
  simp only [main, h]
  by_cases hl : logging_DEBUG ≥ computeLevel opts
  · exact ⟨["Ready to run"], "Ready to run" ++ "\n", by simp [hl]⟩
  · exact ⟨[], "", by simp [hl]⟩

/-- Witness for `main_success_exit` at the argument vector `["foo"]`. -/
theorem main_success_exit_witness :
    (∃ records err, main ["foo"] = .returned none records "" err) ∧
      sysExitCode none = 0 :=
  main_success_exit ["foo"] defaultOptions [] (by decide)

/-- C8: invoking the script with `-h` or `--help` exits with status 0 and
prints help text whose usage line contains the program name `argv[0]`. -/
theorem help_exits_zero (prog : String) :
    ((runScript [prog, "-h"]).exitCode = 0 ∧
      ∃ a b, (runScript [prog, "-h"]).out = a ++ (prog ++ b)) ∧
    ((runScript [prog, "--help"]).exitCode = 0 ∧
      ∃ a b, (runScript [prog, "--help"]).out = a ++ (prog ++ b)) := by
  have hc : ∃ a b, helpText prog = a ++ (prog ++ b) := by
    refine ⟨"Usage: ", " [options]\n" ++ ("\nOptions:\n" ++
      ("  -h, --help     show this help message and exit\n" ++
        ("  -q, --quiet    decrease the logging verbosity\n" ++
          ("  -s, --silent   silence the logger\n" ++
            "  -v, --verbose  increase the logging verbosity\n")))), ?_⟩
    simp [helpText, usageText, String.append_assoc]
  have h1 : runScript [prog, "-h"] =
      { exitCode := 0, out := helpText prog, err := "", records := [] } := rfl
  have h2 : runScript [prog, "--help"] =
      { exitCode := 0, out := helpText prog, err := "", records := [] } := rfl
  rw [h1, h2]
  exact ⟨⟨rfl, hc⟩, ⟨rfl, hc⟩⟩

/-- C10: `getpyfile` returns `base ++ ".py"` exactly when the extension's
first three characters are `.py` and the resolved `.py` file exists under
the supplied existence predicate; in every other case it returns the
filename unchanged. -/
theorem getpyfile_resolution (filename : String)
    (split : String → String × String) (exists' : String → Bool) :
    ((split filename).2.data.take 3 = ['.', 'p', 'y'] ∧
        exists' ((split filename).1 ++ ".py") = true →
      getpyfile filename split exists' = (split filename).1 ++ ".py") ∧
    (¬(split filename).2.data.take 3 = ['.', 'p', 'y'] ∨
        exists' ((split filename).1 ++ ".py") = false →
      getpyfile filename split exists' = filename) := by
  constructor
  · rintro ⟨h1, h2⟩
    simp [getpyfile, h1, h2]
  · rintro (h1 | h1)
    · simp only [getpyfile, if_neg h1]
      cases hex : exists' filename <;> simp [hex]
    · by_cases h2 : (split filename).2.data.take 3 = ['.', 'p', 'y']
      · simp [getpyfile, h2, h1]
      · simp only [getpyfile, if_neg h2]
        cases hex : exists' filename <;> simp [hex]

/-- Processing a cluster of recognized short-option letters never
fails. -/
theorem processShortChars_all_qsv (cs : List Char) :
    ∀ opts : Options,
      cs.all (fun c => c = 'q' || c = 's' || c = 'v') = true →
      ∃ opts', processShortChars cs opts = .ok opts' := by
  induction cs with
  | nil => exact fun opts _ => ⟨opts, rfl⟩
  | cons c rest ih =>
    intro opts h
    simp only [List.all_cons, Bool.and_eq_true, Bool.or_eq_true,
      decide_eq_true_eq] at h
    obtain ⟨hc, hrest⟩ := h
    have hrest' : rest.all (fun c => c = 'q' || c = 's' || c = 'v') = true := by
      simpa [List.all_eq_true] using hrest
    rcases hc with (hc | hc) | hc
    · subst hc
      have e : processShortChars ('q' :: rest) opts =
          processShortChars rest { opts with quiet := opts.quiet + 1 } := rfl
      rw [e]
      exact ih _ hrest'
    · subst hc
      have e : processShortChars ('s' :: rest) opts =
          processShortChars rest { opts with silent := true } := rfl
      rw [e]
      exact ih _ hrest'
    · subst hc
      have e : processShortChars ('v' :: rest) opts =
          processShortChars rest { opts with verbose := opts.verbose + 1 } := rfl
      rw [e]
      exact ih _ hrest'

/-- A recognized flag token is consumed by the parse loop, which then
continues on the remaining tokens with some updated option record. -/
theorem processArgs_recognized_step (t : String) (rest : List String)
    (opts : Options) (ht : recognizedFlagToken t = true) :
    ∃ opts', processArgs (t :: rest) opts = processArgs rest opts' := by
  simp only [recognizedFlagToken, Bool.or_eq_true, decide_eq_true_eq] at ht
  rcases ht with ((h | h) | h) | h
  · subst h
    exact ⟨{ opts with quiet := opts.quiet + 1 }, rfl⟩
  · subst h
    exact ⟨{ opts with silent := true }, rfl⟩
  · subst h
    exact ⟨{ opts with verbose := opts.verbose + 1 }, rfl⟩
  · simp only [shortRecognized, Bool.and_eq_true, Bool.not_eq_true',
      decide_eq_true_eq, decide_eq_false_iff_not] at h
    obtain ⟨⟨⟨h1, h2⟩, h3⟩, h4⟩ := h
    have hne : ¬t = "--" := by
      intro he
      subst he
      exact h2 (by decide)
    obtain ⟨opts', hops⟩ :=
      processShortChars_all_qsv (t.data.drop 1) opts (by simpa using h4)
    refine ⟨opts', ?_⟩
    simp only [processArgs]
    rw [if_neg hne, if_neg h2, if_pos ⟨h1, h3⟩, hops]

/-- A run of recognized flag tokens is consumed entirely, leaving the
parse loop at the remaining tokens with some option record. -/
theorem processArgs_pre (pre : List String) :
    ∀ (l : List String) (opts : Options),
      (∀ x ∈ pre, recognizedFlagToken x = true) →
      ∃ opts', processArgs (pre ++ l) opts = processArgs l opts' := by
  induction pre with
  | nil => exact fun l opts _ => ⟨opts, rfl⟩
  | cons t pre ih =>
    intro l opts h
    obtain ⟨o1, h1⟩ :=
      processArgs_recognized_step t (pre ++ l) opts (h t (by simp))
    obtain ⟨o2, h2⟩ := ih l o1 (fun x hx => h x (by simp [hx]))
    exact ⟨o2, by rw [List.cons_append, h1, h2]⟩

/-- The parse loop stops at a non-flag token and returns it, with every
token after it, as the positional list. -/
theorem processArgs_stop (t : String) (rest : List String) (opts : Options)
    (ht : flagLike t = false) :
    processArgs (t :: rest) opts = .ok opts (t :: rest) := by
  simp only [flagLike, Bool.or_eq_false_iff, Bool.and_eq_false_iff,
    decide_eq_false_iff_not] at ht
  obtain ⟨⟨h1, h2⟩, h3⟩ := ht
  simp only [processArgs]
  rw [if_neg h1, if_neg h2, if_neg ?hcond]
  case hcond =>
    rintro ⟨ha, hb⟩
    rcases h3 with h3 | h3
    · exact h3 ha
    · exact h3 hb

/-- Scanning a rejected short-option cluster produces a usage error. -/
theorem processShortChars_bad (cs : List Char) :
    ∀ opts : Options, badShortCluster cs = true →
      ∃ msg, processShortChars cs opts = .error (.usageError msg) := by
  induction cs with
  | nil =>
    intro opts h
    exact absurd h (by decide)
  | cons c rest ih =>
    intro opts h
    by_cases hq : c = 'q'
    · subst hq
      have hb : badShortCluster ('q' :: rest) = badShortCluster rest := rfl
      rw [hb] at h
      have e : processShortChars ('q' :: rest) opts =
          processShortChars rest { opts with quiet := opts.quiet + 1 } := rfl
      rw [e]
      exact ih _ h
    by_cases hs : c = 's'
    · subst hs
      have hb : badShortCluster ('s' :: rest) = badShortCluster rest := rfl
      rw [hb] at h
      have e : processShortChars ('s' :: rest) opts =
          processShortChars rest { opts with silent := true } := rfl
      rw [e]
      exact ih _ h
    by_cases hv : c = 'v'
    · subst hv
      have hb : badShortCluster ('v' :: rest) = badShortCluster rest := rfl
      rw [hb] at h
      have e : processShortChars ('v' :: rest) opts =
          processShortChars rest { opts with verbose := opts.verbose + 1 } := rfl
      rw [e]
      exact ih _ h
    by_cases hh : c = 'h'
    · subst hh
      have hb : badShortCluster ('h' :: rest) = false := rfl
      rw [hb] at h
      exact absurd h (by decide)
    · refine ⟨"no such option: -" ++ c.toString, ?_⟩
      simp only [processShortChars]
      rw [if_neg hq, if_neg hs, if_neg hv, if_neg hh]

/-- An unrecognized flag token makes the parse loop fail with a usage
error, whatever option record has accumulated so far. -/
theorem processArgs_unrecognized (t : String) (rest : List String)
    (opts : Options) (ht : unrecognizedFlag t = true) :
    ∃ msg, processArgs (t :: rest) opts = .usageError msg := by
  by_cases h2 : t.data.take 2 = ['-', '-']
  · rw [unrecognizedFlag, if_pos h2] at ht
    simp only [Bool.and_eq_true, decide_eq_true_eq, longOptNames,
      List.all_cons, List.all_nil, Bool.and_true, Bool.not_eq_true'] at ht
    obtain ⟨hne, hhelp, hquiet, hsilent, hverbose⟩ := ht
    have hmem : ¬beforeEq t ∈ longOptNames := by
      intro hm
      simp only [longOptNames, List.mem_cons, List.not_mem_nil, or_false] at hm
      rcases hm with hm | hm | hm | hm
      · rw [hm] at hhelp
        exact absurd hhelp (by decide)
      · rw [hm] at hquiet
        exact absurd hquiet (by decide)
      · rw [hm] at hsilent
        exact absurd hsilent (by decide)
      · rw [hm] at hverbose
        exact absurd hverbose (by decide)
    have hfilter : longOptNames.filter
        (fun w => charsStartWith w.data (beforeEq t).data) = [] := by
      simp [longOptNames, List.filter_cons, hhelp, hquiet, hsilent, hverbose]
    have hmatch : matchLongOpt (beforeEq t) = none := by
      rw [matchLongOpt, if_neg hmem, hfilter]
    refine ⟨"no such option: " ++ beforeEq t, ?_⟩
    simp only [processArgs]
    rw [if_neg hne, if_pos h2]
    simp only [processLongOpt, hmatch]
  · rw [unrecognizedFlag, if_neg h2] at ht
    by_cases hc : (decide (t.data.take 1 = ['-']) && decide (t.length > 1)) = true
    · rw [if_pos hc] at ht
      simp only [Bool.and_eq_true, decide_eq_true_eq] at hc
      obtain ⟨h1, h3⟩ := hc
      have hne : ¬t = "--" := by
        intro he
        subst he
        exact h2 (by decide)
      obtain ⟨msg, hmsg⟩ := processShortChars_bad (t.data.drop 1) opts ht
      refine ⟨msg, ?_⟩
      simp only [processArgs]
      rw [if_neg hne, if_neg h2, if_pos ⟨h1, h3⟩, hmsg]
    · rw [if_neg hc] at ht
      exact absurd ht (by decide)

/-- C5: with interspersing disabled, once the first non-flag token
appears after a run of recognized flags, that token and every token
after it (flag-looking or not) are returned as positionals. -/
theorem no_interspersed_args (prog t : String) (pre rest : List String)
    (hpre : ∀ x ∈ pre, recognizedFlagToken x = true)
    (ht : flagLike t = false) :
    ∃ opts, parseargs (prog :: pre ++ (t :: rest)) = .ok opts (t :: rest) := by
  obtain ⟨opts', hp⟩ := processArgs_pre pre (t :: rest) defaultOptions hpre
  refine ⟨opts', ?_⟩
  show processArgs (pre ++ (t :: rest)) defaultOptions = _
  rw [hp, processArgs_stop t rest opts' ht]

/-- Witness for `no_interspersed_args`: after `-v`, the positional `pos`
and the flag-looking `-q` after it are both returned as positionals. -/
theorem no_interspersed_args_witness :
    ∃ opts, parseargs ["foo", "-v", "pos", "-q"] = .ok opts ["pos", "-q"] :=
  no_interspersed_args "foo" "pos" ["-v"] ["-q"] (by decide) (by decide)

/-- C2: an unrecognized flag token before any positional makes parsing
fail with a usage error, the process exit status 2 is non-zero, and the
error stream carries the usage text naming the program; argument vectors
of recognized flags followed by positionals (or nothing) parse without
raising. -/
theorem unrecognized_flag_usage_error (prog t : String) (pre rest : List String)
    (hpre : ∀ x ∈ pre, recognizedFlagToken x = true) :
    (unrecognizedFlag t = true →
      (∃ msg, parseargs (prog :: pre ++ (t :: rest)) = .usageError msg) ∧
      (runScript (prog :: pre ++ (t :: rest))).exitCode = 2 ∧
      ¬(runScript (prog :: pre ++ (t :: rest))).exitCode = 0 ∧
      (∃ tail, (runScript (prog :: pre ++ (t :: rest))).err =
        usageText prog ++ tail) ∧
      (∃ a b, usageText prog = a ++ (prog ++ b))) ∧
    (flagLike t = false →
      ∃ opts args, parseargs (prog :: pre ++ (t :: rest)) = .ok opts args) ∧
    (∃ opts, parseargs (prog :: pre) = .ok opts []) := by
  refine ⟨?_, ?_, ?_⟩
  · intro ht
    obtain ⟨opts', hp⟩ := processArgs_pre pre (t :: rest) defaultOptions hpre
    obtain ⟨msg, hmsg⟩ := processArgs_unrecognized t rest opts' ht
    have hparse : parseargs (prog :: pre ++ (t :: rest)) = .usageError msg := by
      show processArgs (pre ++ (t :: rest)) defaultOptions = _
      rw [hp, hmsg]
    have hrun : runScript (prog :: pre ++ (t :: rest)) =
        { exitCode := 2, out := "",
          err := usageText prog ++ (prog ++ (": error: " ++ (msg ++ "\n"))),
          records := [] } := by
      simp only [runScript, hparse]
      rfl
    refine ⟨⟨msg, hparse⟩, ?_, ?_, ?_, "Usage: ", " [options]\n", rfl⟩
    · rw [hrun]
    · rw [hrun]
      exact (by decide : ¬(2 : Int) = 0)
    · exact ⟨prog ++ (": error: " ++ (msg ++ "\n")), by rw [hrun]⟩
  · intro ht
    obtain ⟨opts', hp⟩ := processArgs_pre pre (t :: rest) defaultOptions hpre
    refine ⟨opts', t :: rest, ?_⟩
    show processArgs (pre ++ (t :: rest)) defaultOptions = _
    rw [hp, processArgs_stop t rest opts' ht]
  · obtain ⟨opts', hp⟩ := processArgs_pre pre [] defaultOptions hpre
    rw [List.append_nil] at hp
    refine ⟨opts', ?_⟩
    show processArgs pre defaultOptions = _
    rw [hp]
    rfl

/-- Witness for `unrecognized_flag_usage_error`: `-x` after `-v` is a
usage error; `pos` after `-v` parses; `-v` alone parses. -/
theorem unrecognized_flag_usage_error_witness :
    (∃ msg, parseargs ["foo", "-v", "-x", "z"] = .usageError msg) ∧
    (∃ opts args, parseargs ["foo", "-v", "pos", "z"] = .ok opts args) ∧
    (∃ opts, parseargs ["foo", "-v"] = .ok opts []) :=
  ⟨((unrecognized_flag_usage_error "foo" "-x" ["-v"] ["z"] (by decide)).1
      (by decide)).1,
    (unrecognized_flag_usage_error "foo" "pos" ["-v"] ["z"] (by decide)).2.1
      (by decide),
    (unrecognized_flag_usage_error "foo" "x" ["-v"] [] (by decide)).2.2⟩

/-- The parse loop over tokens drawn from the six exact flag spellings
accumulates counts on top of the incoming option record and leaves no
positionals. -/
theorem processArgs_counts (toks : List String) :
    ∀ opts : Options, (∀ x ∈ toks, x ∈ sixFlags) →
      processArgs toks opts =
        .ok { quiet := opts.quiet + countQuiet toks,
              silent := opts.silent || anySilent toks,
              verbose := opts.verbose + countVerbose toks } [] := by
  induction toks with
  | nil =>
    intro opts _
    simp [processArgs, countQuiet, countVerbose, anySilent]
  | cons t rest ih =>
    intro opts hmem
    have ht : t ∈ sixFlags := hmem t (by simp)
    have hrest : ∀ x ∈ rest, x ∈ sixFlags :=
      fun x hx => hmem x (List.mem_cons_of_mem _ hx)
    simp only [sixFlags, List.mem_cons, List.not_mem_nil, or_false] at ht
    rcases ht with rfl | rfl | rfl | rfl | rfl | rfl
    · have e : processArgs ("-q" :: rest) opts =
          processArgs rest { opts with quiet := opts.quiet + 1 } := rfl
      rw [e, ih _ hrest]
      have eq1 : countQuiet ("-q" :: rest) = countQuiet rest + 1 := rfl
      have eq2 : countVerbose ("-q" :: rest) = countVerbose rest := rfl
      have eq3 : anySilent ("-q" :: rest) = anySilent rest := rfl
      simp only [ParseResult.ok.injEq, Options.mk.injEq, eq1, eq2, eq3]
      and_intros <;> first | rfl | omega | trivial | simp
    · have e : processArgs ("--quiet" :: rest) opts =
          processArgs rest { opts with quiet := opts.quiet + 1 } := rfl
      rw [e, ih _ hrest]
      have eq1 : countQuiet ("--quiet" :: rest) = countQuiet rest + 1 := rfl
      have eq2 : countVerbose ("--quiet" :: rest) = countVerbose rest := rfl
      have eq3 : anySilent ("--quiet" :: rest) = anySilent rest := rfl
      simp only [ParseResult.ok.injEq, Options.mk.injEq, eq1, eq2, eq3]
      and_intros <;> first | rfl | omega | trivial | simp
    · have e : processArgs ("-s" :: rest) opts =
          processArgs rest { opts with silent := true } := rfl
      rw [e, ih _ hrest]
      have eq1 : countQuiet ("-s" :: rest) = countQuiet rest := rfl
      have eq2 : countVerbose ("-s" :: rest) = countVerbose rest := rfl
      have eq3 : anySilent ("-s" :: rest) = true := rfl
      simp only [ParseResult.ok.injEq, Options.mk.injEq, eq1, eq2, eq3]
      and_intros <;> first | rfl | omega | trivial | simp
    · have e : processArgs ("--silent" :: rest) opts =
          processArgs rest { opts with silent := true } := rfl
      rw [e, ih _ hrest]
      have eq1 : countQuiet ("--silent" :: rest) = countQuiet rest := rfl
      have eq2 : countVerbose ("--silent" :: rest) = countVerbose rest := rfl
      have eq3 : anySilent ("--silent" :: rest) = true := rfl
      simp only [ParseResult.ok.injEq, Options.mk.injEq, eq1, eq2, eq3]
      and_intros <;> first | rfl | omega | trivial | simp
    · have e : processArgs ("-v" :: rest) opts =
          processArgs rest { opts with verbose := opts.verbose + 1 } := rfl
      rw [e, ih _ hrest]
      have eq1 : countQuiet ("-v" :: rest) = countQuiet rest := rfl
      have eq2 : countVerbose ("-v" :: rest) = countVerbose rest + 1 := rfl
      have eq3 : anySilent ("-v" :: rest) = anySilent rest := rfl
      simp only [ParseResult.ok.injEq, Options.mk.injEq, eq1, eq2, eq3]
      and_intros <;> first | rfl | omega | trivial | simp
    · have e : processArgs ("--verbose" :: rest) opts =
          processArgs rest { opts with verbose := opts.verbose + 1 } := rfl
      rw [e, ih _ hrest]
      have eq1 : countQuiet ("--verbose" :: rest) = countQuiet rest := rfl
      have eq2 : countVerbose ("--verbose" :: rest) = countVerbose rest + 1 := rfl
      have eq3 : anySilent ("--verbose" :: rest) = anySilent rest := rfl
      simp only [ParseResult.ok.injEq, Options.mk.injEq, eq1, eq2, eq3]
      and_intros <;> first | rfl | omega | trivial | simp

/-- C6: over argument vectors of recognized flag spellings, `parseargs`
starts from the defaults `quiet = 0`, `silent = false`, `verbose = 0`;
each `-q`/`--quiet` adds one to `quiet`, each `-v`/`--verbose` adds one
to `verbose`, and any `-s`/`--silent` makes `silent` true. -/
theorem parseargs_flag_counts (prog : String) (toks : List String)
    (h : ∀ x ∈ toks, x ∈ sixFlags) :
    parseargs (prog :: toks) =
      .ok { quiet := defaultOptions.quiet + countQuiet toks,
            silent := defaultOptions.silent || anySilent toks,
            verbose := defaultOptions.verbose + countVerbose toks } [] := by
  show processArgs toks defaultOptions = _
  exact processArgs_counts toks defaultOptions h

/-- Witness for `parseargs_flag_counts` on a mixed flag vector. -/
theorem parseargs_flag_counts_witness :
    parseargs ["foo", "-q", "--verbose", "-s", "-v", "--quiet"] =
      .ok { quiet := defaultOptions.quiet + 2,
            silent := defaultOptions.silent || true,
            verbose := defaultOptions.verbose + 2 } [] :=
  parseargs_flag_counts "foo" ["-q", "--verbose", "-s", "-v", "--quiet"]
    (by decide)

/-- When every kill succeeds or fails with errno 3, the reap loop drains
the whole process list, invoking kill on each process in pop order. -/
theorem tearDownLoop_ok (procs : List FakeProc) :
    ∀ killed : List FakeProc,
      (∀ p ∈ procs, p.killResult = none ∨ p.killResult = some 3) →
      tearDownLoop procs killed = .ok ([], killed ++ procs.reverse) := by
  induction procs using List.reverseRecOn with
  | nil =>
    intro killed _
    rw [tearDownLoop]
    simp
  | append_singleton xs x ih =>
    intro killed h
    have hx := h x (by simp)
    rw [tearDownLoop]
    split
    · next heq =>
      rw [List.getLast?_concat] at heq
      exact absurd heq (by simp)
    · next p heq =>
      rw [List.getLast?_concat] at heq
      obtain rfl : p = x := by simpa using heq.symm
      have hxs : ∀ q ∈ xs, q.killResult = none ∨ q.killResult = some 3 :=
        fun q hq => h q (by simp [hq])
      rcases hx with hx | hx
      · rw [hx]
        simp only [List.dropLast_concat]
        rw [ih (killed ++ [p]) hxs]
        simp
      · rw [hx]
        simp only [List.dropLast_concat, if_true]
        rw [ih (killed ++ [p]) hxs]
        simp

/-- When some process's kill fails with an errno other than 3, the reap
loop re-raises: it ends in an error carrying a non-3 errno. -/
theorem tearDownLoop_bad (procs : List FakeProc) :
    ∀ killed : List FakeProc,
      (∃ p ∈ procs, ∃ e, p.killResult = some e ∧ ¬e = 3) →
      ∃ e, tearDownLoop procs killed = .error e ∧ ¬e = 3 := by
  induction procs using List.reverseRecOn with
  | nil =>
    intro killed h
    simp at h
  | append_singleton xs x ih =>
    intro killed h
    rw [tearDownLoop]
    split
    · next heq =>
      rw [List.getLast?_concat] at heq
      exact absurd heq (by simp)
    · next p heq =>
      rw [List.getLast?_concat] at heq
      obtain rfl : p = x := by simpa using heq.symm
      by_cases hxbad : ∃ e, p.killResult = some e ∧ ¬e = 3
      · obtain ⟨e, he, hne3⟩ := hxbad
        rw [he]
        simp only [List.dropLast_concat]
        rw [if_neg hne3]
        exact ⟨e, rfl, hne3⟩
      · have hxgood : p.killResult = none ∨ p.killResult = some 3 := by
          cases hk : p.killResult with
          | none => exact Or.inl rfl
          | some e =>
            by_cases he3 : e = 3
            · subst he3
              exact Or.inr rfl
            · exact absurd ⟨e, hk, he3⟩ hxbad
        have hxs : ∃ q ∈ xs, ∃ e, q.killResult = some e ∧ ¬e = 3 := by
          obtain ⟨r, hr, e, he, hne3⟩ := h
          rcases List.mem_append.mp hr with hr | hr
          · exact ⟨r, hr, e, he, hne3⟩
          · obtain rfl : r = p := by simpa using hr
            exact absurd ⟨e, he, hne3⟩ hxbad
        rcases hxgood with hx | hx
        · rw [hx]
          simp only [List.dropLast_concat]
          exact ih _ hxs
        · rw [hx]
          simp only [List.dropLast_concat, if_true]
          exact ih _ hxs

/-- C9: teardown completes exactly on lists whose kills succeed or fail
with errno 3 (no such process); on completion the process list is empty
and kill was invoked on every process that was in it; a kill failing
with any other errno is re-raised and propagates. -/
theorem teardown_reaps (procs : List FakeProc) :
    ((∀ p ∈ procs, p.killResult = none ∨ p.killResult = some 3) →
      tearDownProcs procs = .ok ([], procs.reverse) ∧
      ∀ p ∈ procs, p ∈ procs.reverse) ∧
    ((∃ p ∈ procs, ∃ e, p.killResult = some e ∧ ¬e = 3) →
      ∃ e, tearDownProcs procs = .error e ∧ ¬e = 3) := by
  constructor
  · intro h
    refine ⟨?_, fun p hp => List.mem_reverse.mpr hp⟩
    have := tearDownLoop_ok procs [] h
    simpa [tearDownProcs] using this
  · intro h
    exact tearDownLoop_bad procs [] h

/-- Witness for `teardown_reaps`: a list with one clean kill and one
errno-3 kill drains completely, and a list with an errno-5 kill
propagates a non-3 error. -/
theorem teardown_reaps_witness :
    (tearDownProcs [⟨1, none⟩, ⟨2, some 3⟩] =
        .ok ([], [⟨1, none⟩, ⟨2, some 3⟩].reverse) ∧
      ∀ p ∈ [(⟨1, none⟩ : FakeProc), ⟨2, some 3⟩],
        p ∈ [(⟨1, none⟩ : FakeProc), ⟨2, some 3⟩].reverse) ∧
    ∃ e, tearDownProcs [⟨1, some 5⟩] = .error e ∧ ¬e = 3 :=
  ⟨(teardown_reaps [⟨1, none⟩, ⟨2, some 3⟩]).1 (by decide),
    (teardown_reaps [⟨1, some 5⟩]).2 ⟨⟨1, some 5⟩, by simp, 5, rfl, by decide⟩⟩

/-- Witness for `getpyfile_resolution`: `foo.pyc` resolves to `foo.py`
when it exists, and `foo.py` stays unchanged when it does not exist. -/
theorem getpyfile_resolution_witness :
    getpyfile "foo.pyc" (fun _ => ("foo", ".pyc")) (fun _ => true) =
      "foo" ++ ".py" ∧
    getpyfile "foo.py" (fun _ => ("foo", ".py")) (fun _ => false) =
      "foo.py" :=
  ⟨(getpyfile_resolution "foo.pyc" (fun _ => ("foo", ".pyc"))
      (fun _ => true)).1 (by decide),
    (getpyfile_resolution "foo.py" (fun _ => ("foo", ".py"))
      (fun _ => false)).2 (Or.inr (by decide))⟩

end Script
